import Mathlib

/-!
Verification development for the VisTrails v1.0.2 → v1.0.3 schema translator
(`vistrails/db/versions/v1_0_3/translate/v1_0_2.py`).

The logic of the translator itself (signature decoding, default/label padding,
annotation re-homing, parameter-exploration extraction, operation dispatch,
configuration-key migration, version stamping) is embedded directly from the
source.  External collaborators that are not part of the translator module
(the generic `update_version` copy primitive, the id-scope allocator, Python
`eval` of literal expressions, the XML parser, the pipeline materializer and
the generated domain constructors) are modelled from the specification; each
such definition carries a doc comment saying so.
-/

/-- Modelled from the spec: the unique-ID allocator service ("id scope"), a
monotonic unique-id counter namespaced by structural type name. -/
abbrev IdScope := List (String × Int)

def scopeGet : IdScope → String → Int
  | [], _ => 0
  | (t, n) :: rest, ty => if t = ty then n else scopeGet rest ty

def scopeSet : IdScope → String → Int → IdScope
  | [], ty, v => [(ty, v)]
  | (t, n) :: rest, ty, v =>
    if t = ty then (ty, v) :: rest else (t, n) :: scopeSet rest ty v

/-- Modelled from the spec: `getNewId(type_name)` returns the next unique id
in the namespace of that type and advances the counter. -/
def getNewId (ty : String) (sc : IdScope) : Int × IdScope :=
  (scopeGet sc ty, scopeSet sc ty (scopeGet sc ty + 1))

def emptyScope : IdScope := []

/-- Single-quote character (used when building Python-literal test strings). -/
def squote : Char := Char.ofNat 39

/-- Double-quote character. -/
def dquote : Char := Char.ofNat 34

/-- Double-quote as a one-character string. -/
def dq : String := String.mk [dquote]

def isWs (c : Char) : Bool := c = ' ' || c = '\t' || c = '\n' || c = '\r'

def skipWs : List Char → List Char
  | [] => []
  | c :: rest => if isWs c then skipWs rest else c :: rest

/-- Python `str.split(sep)` on a character list: always returns at least one
(possibly empty) piece; no maxsplit. -/
def splitChar (c : Char) : List Char → List (List Char)
  | [] => [[]]
  | x :: xs =>
    if x = c then [] :: splitChar c xs
    else
      match splitChar c xs with
      | [] => [[x]]
      | r :: rs => (x :: r) :: rs

/-- Python `str.split(sep, maxsplit)` on a character list: at most `maxsplit`
splits are performed, the remainder is kept whole. -/
def splitMax (c : Char) : Nat → List Char → List (List Char)
  | _, [] => [[]]
  | 0, l => [l]
  | n + 1, x :: xs =>
    if x = c then [] :: splitMax c n xs
    else
      match splitMax c (n + 1) xs with
      | [] => [[x]]
      | r :: rs => (x :: r) :: rs

/-- Scan the body of a quoted string literal up to the closing quote `q`. -/
def scanStr (q : Char) : List Char → Option (List Char × List Char)
  | [] => none
  | c :: rest =>
    if c = q then some ([], rest)
    else
      match scanStr q rest with
      | some (s, r) => some (c :: s, r)
      | none => none

/-- Parse one quoted string literal (single or double quotes, no escape
sequences) after optional whitespace. -/
def parseStrLit (l : List Char) : Option (String × List Char) :=
  match skipWs l with
  | [] => none
  | c :: rest =>
    if c = squote || c = dquote then
      match scanStr c rest with
      | some (s, r) => some (String.mk s, r)
      | none => none
    else none

/-- Result of evaluating a legacy defaults/labels field as a Python literal:
a bare string, a list of strings, or a tuple of strings. -/
inductive PyLit where
  | pstr (s : String)
  | plist (xs : List String)
  | ptuple (xs : List String)
deriving DecidableEq, Repr

/-- Parse a comma-separated sequence of string literals up to the closing
bracket `close`; also reports whether any comma was seen (Python
distinguishes the parenthesized string `(x)` from the 1-tuple `(x,)`). -/
def parseElems (close : Char) : Nat → List Char → Option (List String × Bool × List Char)
  | 0, _ => none
  | n + 1, l =>
    match skipWs l with
    | [] => none
    | c :: rest =>
      if c = close then some ([], false, rest)
      else
        match parseStrLit (c :: rest) with
        | none => none
        | some (v, r) =>
          match skipWs r with
          | [] => none
          | c2 :: rest2 =>
            if c2 = ',' then
              match parseElems close n rest2 with
              | some (es, _, r3) => some (v :: es, true, r3)
              | none => none
            else if c2 = close then some ([v], false, rest2)
            else none

/-- Modelled from the spec: Python `eval` restricted to the literal forms the
spec names for the defaults/labels fields — "a string, or a sequence of
strings" — i.e. a (possibly parenthesized) quoted string or a list/tuple of
quoted strings; escape sequences and non-string scalars are not modelled. -/
def pyEvalLit (s : String) : Option PyLit :=
  match skipWs s.data with
  | [] => none
  | c :: rest =>
    if c = '[' then
      match parseElems ']' (s.data.length + 1) rest with
      | some (es, _, r) => if skipWs r = [] then some (.plist es) else none
      | none => none
    else if c = '(' then
      match parseElems ')' (s.data.length + 1) rest with
      | some (es, sawComma, r) =>
        if skipWs r = [] then
          if es.length = 1 && !sawComma then some (.pstr (es.headD ""))
          else some (.ptuple es)
        else none
      | none => none
    else
      match parseStrLit (c :: rest) with
      | some (v, r) => if skipWs r = [] then some (.pstr v) else none
      | none => none

/-- Old-schema (v1.0.2) PortSpec: one packed signature string plus two
string-encoded literal lists for defaults and labels. -/
structure PortSpecOld where
  id : Int
  name : String
  sigstring : String
  defaults : String
  labels : String
deriving DecidableEq, Repr

/-- New-schema (v1.0.3) PortSpecItem, as constructed by `update_portSpec`
(`DBPortSpecItem(...)` plus the `db_values`/`db_entry_type` assignments). -/
structure PortSpecItem where
  id : Int
  pos : Nat
  module : Option String
  package : Option String
  nspace : String
  label : String
  default : String
  values : String
  entry_type : String
deriving DecidableEq, Repr

/-- New-schema PortSpec: the shell copied by the generic primitive plus the
ordered `portSpecItem` collection filled in by `update_portSpec`. -/
structure PortSpecNew where
  id : Int
  name : String
  items : List PortSpecItem
deriving DecidableEq, Repr

/-- The decoded defaults/labels sequence together with whether it is a Python
list (which supports `extend`) or a tuple (which does not). -/
structure PySeq where
  xs : List String
  isList : Bool
deriving DecidableEq, Repr

/-- Source `eval(field) if field else []`, followed by the wrapping in the source of a
bare string into a one-element tuple (`defaults = (defaults,)`). -/
def decodeSeq (s : String) : Except String PySeq :=
  if s = "" then .ok ⟨[], true⟩
  else
    match pyEvalLit s with
    | none => .error "SyntaxError: malformed literal"
    | some (.pstr v) => .ok ⟨[v], false⟩
    | some (.plist xs) => .ok ⟨xs, true⟩
    | some (.ptuple xs) => .ok ⟨xs, false⟩

/-- The right-padding step of the source
`if len(xs) < total_len: xs.extend("" for i in xrange(total_len-len(xs)))`:
a Python list is extended in place, but a tuple has no `extend` method and
the statement raises `AttributeError`. -/
def padSeq (q : PySeq) (n : Nat) : Except String (List String) :=
  if q.xs.length < n then
    if q.isList then .ok (q.xs ++ List.replicate (n - q.xs.length) "")
    else .error "AttributeError: tuple object has no attribute extend"
  else .ok q.xs

/-- Signature decoding: strip the enclosing parentheses (unless the string is
empty or `"()"`), split on `,`, and split each entry on `:` with maxsplit 2. -/
def parseSigs (s : String) : List (List (List Char)) :=
  if s = "" || s = "()" then []
  else (splitChar ',' ((s.data.drop 1).take (s.data.length - 2))).map (splitMax ':' 2)

/-- Per-entry field extraction: `len(sig) == 1` gives module only (package
stays `None`); otherwise package, module, and (when present) namespace. -/
def sigFields : List (List Char) → Option String × Option String × String
  | [] => (none, none, "")
  | [m] => (some (String.mk m), none, "")
  | p :: m :: rest =>
    (some (String.mk m), some (String.mk p),
      match rest with
      | [] => ""
      | ns :: _ => String.mk ns)

/-- Python `izip` of three lists (truncates to the shortest). -/
def zip3 {α β γ : Type} : List α → List β → List γ → List (α × β × γ)
  | a :: as, b :: bs, c :: cs => (a, b, c) :: zip3 as bs cs
  | _, _, _ => []

/-- The item-construction loop of `update_portSpec`: one `DBPortSpecItem` per
zipped (signature, default, label) triple, each consuming one id-scope
allocation, appended in order with `pos` counting from 0. -/
def buildItems (pos : Nat) : List (List (List Char) × String × String) → IdScope → List PortSpecItem × IdScope
  | [], sc => ([], sc)
  | (sig, dflt, lbl) :: rest, sc =>
    let r := getNewId "portSpecItem" sc
    let fields := sigFields sig
    let item : PortSpecItem :=
      { id := r.1, pos := pos, module := fields.1, package := fields.2.1,
        nspace := fields.2.2, label := lbl, default := dflt,
        values := "", entry_type := "" }
    let built := buildItems (pos + 1) rest r.2
    (item :: built.1, built.2)

/-- Source `update_portSpec`: decode the signature string, evaluate and wrap the
defaults and labels fields, right-pad them to the signature count, and build
one PortSpecItem per position (the shell `id`/`name` are copied by the
generic primitive, modelled as a plain field copy). -/
def update_portSpec (old : PortSpecOld) (sc : IdScope) : Except String (PortSpecNew × IdScope) :=
  match decodeSeq old.defaults with
  | .error e => .error e
  | .ok ds =>
    match decodeSeq old.labels with
    | .error e => .error e
    | .ok ls =>
      match padSeq ds (parseSigs old.sigstring).length with
      | .error e => .error e
      | .ok defaults =>
        match padSeq ls (parseSigs old.sigstring).length with
        | .error e => .error e
        | .ok labels =>
          .ok ({ id := old.id, name := old.name,
                 items := (buildItems 0 (zip3 (parseSigs old.sigstring) defaults labels) sc).1 },
               (buildItems 0 (zip3 (parseSigs old.sigstring) defaults labels) sc).2)

/-- Source `update_portSpecs`: translate the port specs of a module in order. -/
def update_portSpecs : List PortSpecOld → IdScope → Except String (List PortSpecNew × IdScope)
  | [], sc => .ok ([], sc)
  | ps :: rest, sc =>
    match update_portSpec ps sc with
    | .error e => .error e
    | .ok (ps2, sc2) =>
      match update_portSpecs rest sc2 with
      | .error e => .error e
      | .ok (l, sc3) => .ok (ps2 :: l, sc3)

/-- Old-schema operation payload: either an old PortSpec or some other
structural object (kept abstract, identified by a tag). -/
inductive OpData where
  | portSpecPayload (ps : PortSpecOld)
  | otherPayload (tag : String)
deriving DecidableEq, Repr

/-- Translated payload: a transcoded new-schema PortSpec (produced by the
specialized `update_portSpec_op` override), an untranscoded old PortSpec (what
the generic copy would leave), or some other generically copied object. -/
inductive OpDataNew where
  | portSpecPayload (ps : PortSpecNew)
  | rawPortSpec (ps : PortSpecOld)
  | otherPayload (tag : String)
deriving DecidableEq, Repr

/-- Old-schema operation: Add/Change carry a `what` tag and a data payload,
Delete carries only the tag. -/
inductive Op where
  | add (what : String) (data : OpData)
  | change (what : String) (data : OpData)
  | delete (what : String)
deriving DecidableEq, Repr

/-- Translated operation. -/
inductive OpNew where
  | add (what : String) (data : OpDataNew)
  | change (what : String) (data : OpDataNew)
  | delete (what : String)
deriving DecidableEq, Repr

/-- Source `update_portSpec_op`: apply `update_portSpec` to the `db_data`
of the operation; on a payload that is not an old PortSpec the attribute accesses of
`update_portSpec` raise. -/
def update_portSpec_op (d : OpData) (sc : IdScope) : Except String (PortSpecNew × IdScope) :=
  match d with
  | .portSpecPayload ps => update_portSpec ps sc
  | .otherPayload _ => .error "AttributeError: object has no attribute db_sigstring"

/-- Modelled from the spec: the straight field copy of the generic primitive of an
operation payload (no transcoding). -/
def genericCopyData : OpData → OpDataNew
  | .portSpecPayload ps => .rawPortSpec ps
  | .otherPayload s => .otherPayload s

/-- Source `update_operations`: translate the operations of an action in order; an Add or
Change whose `what` is `"portSpec"` gets the `update_portSpec_op` override for
its data field, every other operation goes through the generic copy. -/
def update_operations : List Op → IdScope → Except String (List OpNew × IdScope)
  | [], sc => .ok ([], sc)
  | op :: rest, sc =>
    match op with
    | .delete w =>
      match update_operations rest sc with
      | .error e => .error e
      | .ok (l, sc2) => .ok (.delete w :: l, sc2)
    | .add w d =>
      if w = "portSpec" then
        match update_portSpec_op d sc with
        | .error e => .error e
        | .ok (ps2, sc1) =>
          match update_operations rest sc1 with
          | .error e => .error e
          | .ok (l, sc2) => .ok (.add w (.portSpecPayload ps2) :: l, sc2)
      else
        match update_operations rest sc with
        | .error e => .error e
        | .ok (l, sc2) => .ok (.add w (genericCopyData d) :: l, sc2)
    | .change w d =>
      if w = "portSpec" then
        match update_portSpec_op d sc with
        | .error e => .error e
        | .ok (ps2, sc1) =>
          match update_operations rest sc1 with
          | .error e => .error e
          | .ok (l, sc2) => .ok (.change w (.portSpecPayload ps2) :: l, sc2)
      else
        match update_operations rest sc with
        | .error e => .error e
        | .ok (l, sc2) => .ok (.change w (genericCopyData d) :: l, sc2)

/-- One edit action: an ordered list of operations. -/
structure DBAction where
  id : Int
  operations : List Op
deriving DecidableEq, Repr

/-- Translated action. -/
structure DBActionNew where
  id : Int
  operations : List OpNew
deriving DecidableEq, Repr

/-- Translate the action history in order, the operations of each action through
`update_operations` (the `DBAction` override), the rest copied generically. -/
def updateActions : List DBAction → IdScope → Except String (List DBActionNew × IdScope)
  | [], sc => .ok ([], sc)
  | a :: rest, sc =>
    match update_operations a.operations sc with
    | .error e => .error e
    | .ok (ops, sc1) =>
      match updateActions rest sc1 with
      | .error e => .error e
      | .ok (l, sc2) => .ok (⟨a.id, ops⟩ :: l, sc2)

/-- A generic key/value annotation. -/
structure DBAnnotation where
  key : String
  value : String
deriving DecidableEq, Repr

/-- One entry of the decoded `__vistrail_vars__` mapping:
`name -> (uuid, (package, module, namespace), value)`. -/
structure VarData where
  uuid : String
  package : String
  module : String
  nspace : String
  value : String
deriving DecidableEq, Repr

/-- Modelled from the spec: the new `DBVistrailVariable`, whose identity is
the uuid carried by the decoded annotation entry (not a freshly minted id). -/
structure VistrailVariable where
  name : String
  uuid : String
  package : String
  module : String
  nspace : String
  value : String
deriving DecidableEq, Repr

def mkVistrailVariable (e : String × VarData) : VistrailVariable :=
  ⟨e.1, e.2.uuid, e.2.package, e.2.module, e.2.nspace, e.2.value⟩

/-- An action annotation (key, owning action id, value). -/
structure DBActionAnnotation where
  key : String
  action_id : Int
  value : String
deriving DecidableEq, Repr

/-- A parameter of a materialized pipeline function. -/
structure PParam where
  id : Int
  pos : Int
deriving DecidableEq, Repr

/-- A function of a materialized pipeline module. -/
structure PFunction where
  id : Int
  name : String
  parameters : List PParam
deriving DecidableEq, Repr

/-- A module of a materialized pipeline. -/
structure PModule where
  id : Int
  functions : List PFunction
deriving DecidableEq, Repr

/-- Modelled from the spec: the pipeline snapshot returned by the external
pipeline materializer, queryable as modules → functions → parameters. -/
structure Pipeline where
  modules : List PModule
deriving DecidableEq, Repr

/-- A `<param>` element of the embedded parameter-exploration XML (attribute
values already typed, since the XML parser itself is an external collaborator
modelled from the spec). -/
structure ParamElem where
  pid : Int
  interp : String
  pmin : String
  pmax : String
  values : String
  code : String
  dim : Int
deriving DecidableEq, Repr

/-- A `<function>` element of the embedded parameter-exploration XML. -/
structure FuncElem where
  fid : Int
  aliasAttr : String
  params : List ParamElem
deriving DecidableEq, Repr

/-- Modelled from the spec: the document element produced by parsing the
inner XML fragment, with its `dims`/`layout`/`date` attributes and its
`<function>` elements. -/
structure XmlDoc where
  dims : String
  layout : String
  date : String
  functions : List FuncElem
deriving DecidableEq, Repr

/-- New-schema `DBPEParameter`. -/
structure PEParameter where
  id : Int
  pos : Int
  interpolator : String
  value : String
  dimension : Int
deriving DecidableEq, Repr

/-- New-schema `DBPEFunction`. -/
structure PEFunction where
  id : Int
  module_id : Int
  port_name : String
  is_alias : Int
  parameters : List PEParameter
deriving DecidableEq, Repr

/-- New-schema `DBParameterExploration`. -/
structure ParameterExploration where
  id : Int
  action_id : Int
  dims : String
  layout : String
  date : String
  functions : List PEFunction
deriving DecidableEq, Repr

/-- The function-id resolution scan of `createParameterExploration`: iterate
over every module and function, recording `(module_id, function_name)` on an
id match; the loop never breaks, so the last match wins and no match leaves
the initial `None`. -/
def resolveFunction (pipe : Pipeline) (fid : Int) : Option (Int × String) :=
  pipe.modules.foldl
    (fun acc m =>
      m.functions.foldl
        (fun acc2 f => if f.id = fid then some (m.id, f.name) else acc2) acc)
    none

/-- The parameter-id resolution scan: iterate over every module, function and
parameter, recording the position of the parameter on an id match (last match
wins, no match leaves `None`). -/
def resolveParam (pipe : Pipeline) (pid : Int) : Option Int :=
  pipe.modules.foldl
    (fun acc m =>
      m.functions.foldl
        (fun acc2 f =>
          f.parameters.foldl
            (fun acc3 p => if p.id = pid then some p.pos else acc3) acc2)
        acc)
    none

/-- The value-synthesis chain of the param loop.  `value` is a plain local of
the enclosing Python function, so a param whose `interp` matches no branch
keeps whatever the previous iteration left there (`prev`); if no assignment
has ever happened the later read raises `NameError` (modelled by `none`). -/
def synthValue (p : ParamElem) (prev : Option String) : Option String :=
  let v1 : Option String :=
    if p.interp = "Linear Interpolation" then
      some ("[" ++ p.pmin ++ ", " ++ p.pmax ++ "]")
    else prev
  if p.interp = "RGB Interpolation" || p.interp = "HSV Interpolation" then
    some ("[" ++ dq ++ p.pmin ++ dq ++ ", " ++ dq ++ p.pmax ++ dq ++ "]")
  else if p.interp = "List" then some p.values
  else if p.interp = "User-defined Function" then some p.code
  else v1

/-- The inner param loop: resolve each `<param>` id against the pipeline
(`break` on failure, keeping the params built so far), synthesize the value,
and allocate one id per emitted `DBPEParameter`.  The leaked `value` local is
threaded as `prev`. -/
def extractParams (pipe : Pipeline) :
    List ParamElem → IdScope → Option String →
    Except String (List PEParameter × IdScope × Option String)
  | [], sc, prev => .ok ([], sc, prev)
  | p :: rest, sc, prev =>
    match resolveParam pipe p.pid with
    | none => .ok ([], sc, prev)
    | some pos =>
      match synthValue p prev with
      | none => .error "NameError: name value is not defined"
      | some v =>
        let r := getNewId "peParameter" sc
        match extractParams pipe rest r.2 (some v) with
        | .error e => .error e
        | .ok (l, sc2, prev2) =>
          .ok (⟨r.1, pos, p.interp, v, p.dim⟩ :: l, sc2, prev2)

/-- The outer function loop: resolve each `<function>` id; if the recorded
module id and function name are not both truthy (`if not (module_id and
f_name): break` — `None`, `0` and `""` are all falsy), stop processing
function elements entirely; otherwise extract the params, allocate the
function id and emit a `DBPEFunction`. -/
def extractFunctions (pipe : Pipeline) :
    List FuncElem → IdScope → Option String →
    Except String (List PEFunction × IdScope × Option String)
  | [], sc, prev => .ok ([], sc, prev)
  | f :: rest, sc, prev =>
    match resolveFunction pipe f.fid with
    | none => .ok ([], sc, prev)
    | some (mid, nm) =>
      if mid ≠ 0 ∧ nm ≠ "" then
        match extractParams pipe f.params sc prev with
        | .error e => .error e
        | .ok (params, sc1, prev1) =>
          let r := getNewId "peFunction" sc1
          match extractFunctions pipe rest r.2 prev1 with
          | .error e => .error e
          | .ok (l, sc2, prev2) =>
            .ok (⟨r.1, mid, nm, if f.aliasAttr = "True" then 1 else 0, params⟩ :: l, sc2, prev2)
      else .ok ([], sc, prev)

/-- Source `xmlString[striplen:-(striplen+1)].strip()` with
`striplen = len("<paramexps>") = 11`: drop the first 11 and last 12
characters, then strip surrounding whitespace. -/
def stripParamexps (s : String) : String :=
  let l := s.data.drop 11
  let m := l.take (l.length - 12)
  String.mk (((m.dropWhile (fun c => isWs c)).reverse.dropWhile (fun c => isWs c)).reverse)

/-- The external collaborators of `translateVistrail`, modelled from the
spec: the XML parser (`parseString`, `none` on a parse failure), the Python
`eval` + `dict()` decoding of the `__vistrail_vars__` annotation value
(`none` when `eval` raises), and the pipeline materializer
(`materializeWorkflow(vistrail, action_id)`). -/
structure ExtCollab where
  parseXML : String → Option XmlDoc
  evalVarsDict : String → Option (List (String × VarData))
  materializeWorkflow : Int → Pipeline

/-- Source `createParameterExploration`: return `None` on an empty value; strip the
`<paramexps>` wrapping and parse, returning `None` on a parse failure;
materialize the pipeline at the action of the annotation; extract the functions;
and build the `DBParameterExploration` from the document attributes. -/
def createParameterExploration (ext : ExtCollab) (action_id : Int) (xmlString : String)
    (sc : IdScope) : Except String (Option ParameterExploration × IdScope) :=
  if xmlString = "" then .ok (none, sc)
  else
    match ext.parseXML (stripParamexps xmlString) with
    | none => .ok (none, sc)
    | some doc =>
      let pipe := ext.materializeWorkflow action_id
      match extractFunctions pipe doc.functions sc none with
      | .error e => .error e
      | .ok (functions, sc1, _) =>
        let r := getNewId "parameterExploration" sc1
        .ok (some ⟨r.1, action_id, doc.dims, doc.layout, doc.date, functions⟩, r.2)

/-- Source `update_annotations`: an annotation keyed `__vistrail_vars__` has its
value decoded (`dict(eval(a.db_value)).iteritems()`, an uncaught exception if
`eval` fails) and one `DBVistrailVariable` is accumulated per entry; any
other annotation passes through the generic copy.  Returns the new annotation
list and the accumulated variables in iteration order. -/
def update_annotations (ext : ExtCollab) :
    List DBAnnotation → Except String (List DBAnnotation × List VistrailVariable)
  | [] => .ok ([], [])
  | a :: rest =>
    if a.key = "__vistrail_vars__" then
      match ext.evalVarsDict a.value with
      | none => .error "SyntaxError: eval of vistrail vars failed"
      | some entries =>
        match update_annotations ext rest with
        | .error e => .error e
        | .ok (anns, vars) => .ok (anns, entries.map mkVistrailVariable ++ vars)
    else
      match update_annotations ext rest with
      | .error e => .error e
      | .ok (anns, vars) => .ok (a :: anns, vars)

/-- Prepend a passed-through action annotation to the result of translating
the remaining annotations. -/
def stepAA (b : DBActionAnnotation) :
    Except String (List DBActionAnnotation × List (Option ParameterExploration) × IdScope) →
    Except String (List DBActionAnnotation × List (Option ParameterExploration) × IdScope)
  | .error e => .error e
  | .ok (aas, pes, sc2) => .ok (b :: aas, pes, sc2)

/-- Prepend an accumulated (possibly `None`) parameter exploration to the
result of translating the remaining annotations. -/
def stepPE (pe : Option ParameterExploration) :
    Except String (List DBActionAnnotation × List (Option ParameterExploration) × IdScope) →
    Except String (List DBActionAnnotation × List (Option ParameterExploration) × IdScope)
  | .error e => .error e
  | .ok (aas, pes, sc2) => .ok (aas, pe :: pes, sc2)

/-- Source `update_actionAnnotations`: an action annotation keyed `__paramexp__` is
fed to `createParameterExploration` and the (possibly `None`) result is
accumulated; any other action annotation passes through the generic copy. -/
def update_actionAnnotations (ext : ExtCollab) :
    List DBActionAnnotation → IdScope →
    Except String (List DBActionAnnotation × List (Option ParameterExploration) × IdScope)
  | [], sc => .ok ([], [], sc)
  | aa :: rest, sc =>
    if aa.key = "__paramexp__" then
      match createParameterExploration ext aa.action_id aa.value sc with
      | .error e => .error e
      | .ok (pe, sc1) => stepPE pe (update_actionAnnotations ext rest sc1)
    else stepAA aa (update_actionAnnotations ext rest sc)

/-- Old-schema (v1.0.2) Vistrail root. -/
structure Vistrail where
  actions : List DBAction
  annotations : List DBAnnotation
  actionAnnotations : List DBActionAnnotation
deriving Repr

/-- New-schema (v1.0.3) Vistrail root, with the dedicated
vistrailVariables / parameterExplorations collections. -/
structure VistrailNew where
  actions : List DBActionNew
  annotations : List DBAnnotation
  actionAnnotations : List DBActionAnnotation
  vistrailVariables : List VistrailVariable
  parameterExplorations : List ParameterExploration
  version : String
deriving Repr

/-- Modelled from the spec: the splice of the synthesized collections into
the fresh new-schema root (`db_add_vistrailVariable` /
`db_add_parameter_exploration`, generated domain methods not under src/).
The "drop that single exploration" rule of the spec means the `None` result of a
skipped extraction contributes nothing to the parameter-exploration
collection. -/
def spliceVistrail (acts : List DBActionNew) (anns : List DBAnnotation)
    (vars : List VistrailVariable) :
    Except String (List DBActionAnnotation × List (Option ParameterExploration) × IdScope) →
    Except String VistrailNew
  | .error e => .error e
  | .ok (aas, pes, _) =>
    .ok { actions := acts, annotations := anns, actionAnnotations := aas,
          vistrailVariables := vars,
          parameterExplorations := pes.filterMap id,
          version := "1.0.3" }

/-- Source `translateVistrail`: run the generic primitive with the operation,
annotation and action-annotation overrides over a fresh id scope, splice the
accumulated vistrail variables and parameter explorations into the new root,
and stamp the version. The field-traversal order of the generic primitive is
modelled from the spec: the action history is translated first and the
re-homed collections are attached last. -/
def translateVistrail (ext : ExtCollab) (v : Vistrail) : Except String VistrailNew :=
  match updateActions v.actions emptyScope with
  | .error e => .error e
  | .ok (acts, sc1) =>
    match update_annotations ext v.annotations with
    | .error e => .error e
    | .ok (anns, vars) =>
      spliceVistrail acts anns vars
        (update_actionAnnotations ext v.actionAnnotations sc1)

/-- Old-schema module (only the port specs matter to the translator). -/
structure ModuleOld where
  id : Int
  portSpecs : List PortSpecOld
deriving DecidableEq, Repr

/-- New-schema module. -/
structure ModuleNew where
  id : Int
  portSpecs : List PortSpecNew
deriving DecidableEq, Repr

def updateModules : List ModuleOld → IdScope → Except String (List ModuleNew × IdScope)
  | [], sc => .ok ([], sc)
  | m :: rest, sc =>
    match update_portSpecs m.portSpecs sc with
    | .error e => .error e
    | .ok (specs, sc1) =>
      match updateModules rest sc1 with
      | .error e => .error e
      | .ok (l, sc2) => .ok (⟨m.id, specs⟩ :: l, sc2)

/-- Old-schema workflow root. -/
structure Workflow where
  modules : List ModuleOld
  version : String
deriving DecidableEq, Repr

/-- New-schema workflow root. -/
structure WorkflowNew where
  modules : List ModuleNew
  version : String
deriving DecidableEq, Repr

/-- Source `translateWorkflow`: fresh remapped id scope, port-spec override on
modules, version stamped to the literal target string. -/
def translateWorkflow (w : Workflow) : Except String WorkflowNew :=
  match updateModules w.modules emptyScope with
  | .error e => .error e
  | .ok (mods, _) => .ok { modules := mods, version := "1.0.3" }

/-- Log root (the translator only re-stamps the version; the body is copied
by the generic primitive with an empty override map). -/
structure Log where
  machines : List String
  version : String
deriving DecidableEq, Repr

/-- Source `translateLog`: generic copy plus the version stamp. -/
def translateLog (l : Log) : Log :=
  { machines := l.machines, version := "1.0.3" }

/-- Registry root: module descriptors carry port specs. -/
structure Registry where
  descriptors : List ModuleOld
  version : String
deriving DecidableEq, Repr

structure RegistryNew where
  descriptors : List ModuleNew
  version : String
deriving DecidableEq, Repr

/-- Source `translateRegistry`: fresh id scope, port-spec override on module
descriptors, version stamped. -/
def translateRegistry (r : Registry) : Except String RegistryNew :=
  match updateModules r.descriptors emptyScope with
  | .error e => .error e
  | .ok (ds, _) => .ok { descriptors := ds, version := "1.0.3" }

/-- A configuration value: a typed scalar (`DBConfigBool` / `DBConfigStr` /
`DBConfigInt` / `DBConfigFloat`, each storing its textual `db_value`) or a
nested configuration (a list of named keys). -/
inductive ConfigVal where
  | cbool (s : String)
  | cstr (s : String)
  | cint (s : String)
  | cfloat (s : String)
  | csub (keys : List (String × ConfigVal))

/-- One entry of the declarative rule table of `translateStartup`: a bare new
name (rename), the `None` delete marker, or a tuple of (new name, optional
conversion, optional nested rule table). -/
inductive TEntry where
  | ren (nm : String)
  | del
  | full (nm : Option String) (conv : Option Bool) (inner : Option (List (String × TEntry)))

/-- The two named value conversions: `invert_bool` is `true`, `use_dirname`
is `false` (encoded as a Bool to keep the rule table first-order). -/
abbrev ConvKind := Bool

def lookupT : List (String × TEntry) → String → Option TEntry
  | [], _ => none
  | (k, e) :: rest, nm => if k = nm then some e else lookupT rest nm

/-- Python `unicode(b)` of a boolean. -/
def pyBoolStr (b : Bool) : String := if b then "True" else "False"

/-- The textual `db_value` of a scalar configuration value (a nested
configuration has none; no rule-table entry applies a conversion to one). -/
def configPayload : ConfigVal → String
  | .cbool s => s
  | .cstr s => s
  | .cint s => s
  | .cfloat s => s
  | .csub _ => ""

/-- Python `os.path.dirname` for POSIX-style paths (modelled from the spec:
"take the directory component of a file path string"). -/
def dirname (s : String) : String :=
  let l := s.data
  match l.reverse.findIdx? (fun c => c = '/') with
  | none => ""
  | some k =>
    let head := l.take (l.length - k)
    if head.all (fun c => c = '/') then String.mk head
    else String.mk ((head.reverse.dropWhile (fun c => c = '/')).reverse)

/-- Python `str.lower()` (character-wise, as Python lowercases each
character). -/
def pyLower (s : String) : String := String.mk (s.data.map Char.toLower)

/-- Source `invert_bool` inner conversion `invert_value`:
`unicode(not (_value.db_value.lower() == 'true'))`, rebuilt as a
`DBConfigBool`. -/
def invert_bool_value (v : ConfigVal) : ConfigVal :=
  .cbool (pyBoolStr (!(pyLower (configPayload v) = "true")))

/-- Source `use_dirname` inner conversion `get_dirname`, rebuilt as a `DBConfigStr`. -/
def use_dirname_value (v : ConfigVal) : ConfigVal :=
  .cstr (dirname (configPayload v))

def convApply (c : ConvKind) (v : ConfigVal) : ConfigVal :=
  if c then invert_bool_value v else use_dirname_value v

/-- The literal rule table `t` of `translateStartup` (comment entries of the
source omitted as they are commented out there too). -/
def startupTable : List (String × TEntry) :=
  [("alwaysShowDebugPopup", .ren "showDebugPopups"),
   ("autosave", .ren "autoSave"),
   ("errorOnConnectionTypeerror", .ren "showConnectionErrors"),
   ("errorOnVariantTypeerror", .ren "showVariantErrors"),
   ("interactiveMode", .full (some "batch") (some true) none),
   ("logFile", .full (some "logDirectory") (some false) none),
   ("logger", .del),
   ("maxMemory", .del),
   ("minMemory", .del),
   ("nologger", .full (some "executionLog") (some true) none),
   ("pythonPrompt", .del),
   ("reviewMode", .del),
   ("shell", .full (some "shell") none
      (some [("font_face", .ren "fontFace"), ("font_size", .ren "fontSize")])),
   ("showMovies", .del),
   ("showSpreadsheetOnly", .full (some "showWindow") (some true) none),
   ("spreadsheetDumpCells", .ren "outputDirectory"),
   ("upgradeOn", .ren "upgrades"),
   ("useCache", .ren "cache"),
   ("verbosenessLevel", .ren "debugLevel"),
   ("webRepositoryLogin", .ren "webRespositoryUser"),
   ("evolutionGraph", .ren "withVersionTree"),
   ("workflowGraph", .ren "withWorkflow"),
   ("workflowInfo", .ren "outputDirectory"),
   ("executeWorkflows", .ren "execute"),
   ("abstractionsDirectory", .ren "subworkflowsDirectory")]

mutual
/-- Source `update_config_keys`: for each key look up its rule; a delete marker
drops the key; otherwise the rename (if any) and the value conversion (if
any) are applied through scoped `DBConfigKey` overrides, and when no
conversion is in force the value is copied generically — which recurses into
a nested configuration with the active rule table (the inner table when the
rule supplies one, the current one otherwise). -/
def update_config_keys (t : List (String × TEntry)) :
    List (String × ConfigVal) → List (String × ConfigVal)
  | [] => []
  | (nm, v) :: rest =>
    match lookupT t nm with
    | some .del => update_config_keys t rest
    | some (.ren newNm) => (newNm, transValUnder t v) :: update_config_keys t rest
    | some (.full newNm conv inner) =>
      let activeT := match inner with
        | some it => it
        | none => t
      let v2 := match conv with
        | some c => convApply c v
        | none => transValUnder activeT v
      let outNm := match newNm with
        | some n2 => n2
        | none => nm
      (outNm, v2) :: update_config_keys t rest
    | none => (nm, transValUnder t v) :: update_config_keys t rest

/-- The generic copy of a configuration value under the active rule table:
the `DBConfiguration` override re-enters `update_config_keys` on a nested
configuration; scalars are copied unchanged. -/
def transValUnder (t : List (String × TEntry)) : ConfigVal → ConfigVal
  | .csub keys => .csub (update_config_keys t keys)
  | .cbool s => .cbool s
  | .cstr s => .cstr s
  | .cint s => .cint s
  | .cfloat s => .cfloat s
end

/-- Startup root: the configuration tree plus the version tag. -/
structure Startup where
  configuration : List (String × ConfigVal)
  version : String

/-- Source `translateStartup`: migrate the configuration keys under the rule table
and stamp the version. -/
def translateStartup (s : Startup) : Startup :=
  { configuration := update_config_keys startupTable s.configuration,
    version := "1.0.3" }

/-! ### Helper lemmas -/

lemma splitChar_of_not_mem {c : Char} {l : List Char} (h : c ∉ l) :
    splitChar c l = [l] := by
  induction l with
  | nil => rfl
  | cons x xs ih =>
    have hx : ¬ x = c := fun he => h (he ▸ List.mem_cons_self x xs)
    have hxs : c ∉ xs := fun hm => h (List.mem_cons_of_mem x hm)
    simp only [splitChar, if_neg hx, ih hxs]

lemma splitMax_of_not_mem {c : Char} {l : List Char} (n : Nat) (h : c ∉ l) :
    splitMax c n l = [l] := by
  induction l generalizing n with
  | nil => cases n <;> rfl
  | cons x xs ih =>
    have hx : ¬ x = c := fun he => h (he ▸ List.mem_cons_self x xs)
    have hxs : c ∉ xs := fun hm => h (List.mem_cons_of_mem x hm)
    cases n with
    | zero => rfl
    | succ m => simp only [splitMax, if_neg hx, ih (m + 1) hxs]

lemma parseSigs_single {part : String} (hne : part.data ≠ [])
    (hnc : ',' ∉ part.data) (hncol : ':' ∉ part.data) :
    parseSigs ("(" ++ part ++ ")") = [[part.data]] := by
  have hdata : ("(" ++ part ++ ")").data = '(' :: (part.data ++ [')']) := by
    rw [String.data_append, String.data_append]
    rfl
  have hne1 : ("(" ++ part ++ ")") ≠ "" := by
    intro he
    have := congrArg String.data he
    rw [hdata] at this
    exact List.cons_ne_nil _ _ this
  have hne2 : ("(" ++ part ++ ")") ≠ "()" := by
    intro he
    have hd2 := congrArg String.data he
    rw [hdata] at hd2
    have hrp : ("()" : String).data = ['(', ')'] := rfl
    rw [hrp] at hd2
    have h2 : part.data ++ [')'] = [')'] := List.cons_injective hd2
    have h3 : part.data = [] := by simpa using h2
    exact hne h3
  unfold parseSigs
  rw [if_neg (by simp [hne1, hne2])]
  rw [hdata]
  have hdrop : (('(' :: (part.data ++ [')'])).drop 1) = part.data ++ [')'] := rfl
  have hlen : ('(' :: (part.data ++ [')'])).length - 2 = part.data.length := by
    simp
  rw [hdrop, hlen, List.take_left, splitChar_of_not_mem hnc]
  simp [splitMax_of_not_mem 2 hncol]

lemma padSeq_length {q : PySeq} {n : Nat} {xs : List String}
    (h : padSeq q n = .ok xs) : xs.length = max q.xs.length n := by
  unfold padSeq at h
  split at h
  · split at h
    · cases h
      simp only [List.length_append, List.length_replicate]
      omega
    · cases h
  · cases h
    omega

/-! ### Claim theorems: PortSpec transcoding -/

/-- The defaults literal of the C1 scenario, the Python text of a two-element
string list. -/
def defaultsLitC1 : String :=
  String.mk ['[', squote, 'x', squote, ',', squote, 'y', squote, ']']

/-- The labels literal of the C1 scenario, the Python text of a one-element
string list. -/
def labelsLitC1 : String := String.mk ['[', squote, 'p', squote, ']']

/-- Claim C1: for every old-schema PortSpec with sigstring "(a:B,c:D:ns)",
defaults "['x','y']" and labels "['p']", `update_portSpec` succeeds and
returns a PortSpec with exactly 2 items: item at pos 0 has package a,
module B, empty namespace, default x, label p; item at pos 1 has package c,
module D, namespace ns, default y and the empty label produced by
right-padding the labels with empty strings. -/
theorem update_portSpec_c1_two_items (pid : Int) (pname : String) (sc : IdScope) :
    ∃ ps sc2,
      update_portSpec ⟨pid, pname, "(a:B,c:D:ns)", defaultsLitC1, labelsLitC1⟩ sc = .ok (ps, sc2) ∧
      ps.items.length = 2 ∧
      ps.items.map (fun it => (it.pos, it.package, it.module, it.nspace, it.default, it.label)) =
        [(0, some "a", some "B", "", "x", "p"), (1, some "c", some "D", "ns", "y", "")] := by
  refine ⟨_, _, rfl, ?_, ?_⟩ <;> rfl

/-- The bare-string defaults literal (a single-quoted x) of the C2 scenario. -/
def bareDefaultLit : String := String.mk [squote, 'x', squote]

/-- Claim C2 (code bug): when the defaults field decodes to a bare string it
is wrapped in a one-element Python tuple, and for a signature with 2 entries
the padding step calls `.extend` on that tuple, which raises AttributeError
instead of right-padding — the translation aborts rather than producing 2
items. -/
theorem update_portSpec_c2_bare_string_crash :
    update_portSpec ⟨0, "p", "(a:B,c:D)", bareDefaultLit, ""⟩ emptyScope =
      .error "AttributeError: tuple object has no attribute extend" := by
  rfl

/-- For a one-entry signature the bare-string case does work (no padding is
needed), matching the claim only at n = 1. -/
lemma update_portSpec_bare_string_n1 :
    ∃ ps sc2,
      update_portSpec ⟨0, "p", "(a:B)", bareDefaultLit, ""⟩ emptyScope = .ok (ps, sc2) ∧
      ps.items.map (fun it => it.default) = ["x"] := by
  exact ⟨_, _, rfl, rfl⟩

/-- Claim C10: a signature entry without a colon separator yields a
PortSpecItem whose module is that entry, whose package is None (not the
empty string) and whose namespace is the empty string. -/
theorem update_portSpec_c10_no_colon (pid : Int) (pname dflts lbls : String)
    (sc : IdScope) (part : String)
    (hne : part.data ≠ []) (hnc : ',' ∉ part.data) (hncol : ':' ∉ part.data)
    (res : PortSpecNew) (sc2 : IdScope)
    (h : update_portSpec ⟨pid, pname, "(" ++ part ++ ")", dflts, lbls⟩ sc = .ok (res, sc2)) :
    res.items.length = 1 ∧
    res.items.map (fun it => (it.module, it.package, it.nspace)) = [(some part, none, "")] := by
  unfold update_portSpec at h
  rw [parseSigs_single hne hnc hncol] at h
  rcases hd : decodeSeq dflts with e | ds <;> rw [hd] at h <;> dsimp only at h
  · exact Except.noConfusion h
  rcases hl : decodeSeq lbls with e | ls <;> rw [hl] at h <;> dsimp only at h
  · exact Except.noConfusion h
  rcases hpd : padSeq ds [[part.data]].length with e | defaults <;> rw [hpd] at h <;> dsimp only at h
  · exact Except.noConfusion h
  rcases hpl : padSeq ls [[part.data]].length with e | labels <;> rw [hpl] at h <;> dsimp only at h
  · exact Except.noConfusion h
  have hdl : defaults.length = max ds.xs.length 1 := padSeq_length hpd
  have hll : labels.length = max ls.xs.length 1 := padSeq_length hpl
  rcases defaults with _ | ⟨d, drest⟩
  · simp only [List.length_nil] at hdl
    have := Nat.le_max_right ds.xs.length 1
    omega
  rcases labels with _ | ⟨l, lrest⟩
  · simp only [List.length_nil] at hll
    have := Nat.le_max_right ls.xs.length 1
    omega
  cases h
  constructor <;> rfl

/-! ### Claim C6: operation dispatch -/

/-- The per-operation correspondence established by `update_operations`: the
operation kind and `what` tag are preserved, and an Add or Change whose
`what` is `"portSpec"` carries a payload produced by `update_portSpec` from
the original old-schema PortSpec payload (never the generic `rawPortSpec`
copy). -/
def specialized : Op → OpNew → Prop
  | .add w d, .add w2 d2 =>
      w2 = w ∧ (w = "portSpec" →
        ∃ ps sc ps2 sc2, d = .portSpecPayload ps ∧
          update_portSpec ps sc = .ok (ps2, sc2) ∧ d2 = .portSpecPayload ps2)
  | .change w d, .change w2 d2 =>
      w2 = w ∧ (w = "portSpec" →
        ∃ ps sc ps2 sc2, d = .portSpecPayload ps ∧
          update_portSpec ps sc = .ok (ps2, sc2) ∧ d2 = .portSpecPayload ps2)
  | .delete w, .delete w2 => w2 = w
  | _, _ => False

/-- Claim C6: whenever `update_operations` succeeds, the output list has the
same length as the input and, position by position, each translated
operation corresponds to the original one — in particular every Add/Change
with `what = "portSpec"` had its data translated through the specialized
port-spec transcoder, and order is preserved. -/
theorem update_operations_c6_specialized (ops : List Op) (sc : IdScope)
    (res : List OpNew) (sc2 : IdScope)
    (h : update_operations ops sc = .ok (res, sc2)) :
    res.length = ops.length ∧
    ∀ (i : Nat) op opn, ops[i]? = some op → res[i]? = some opn → specialized op opn := by
  induction ops generalizing sc res sc2 with
  | nil =>
    unfold update_operations at h
    cases h
    exact ⟨rfl, fun i op opn h1 _ => by simp at h1⟩
  | cons op rest ih =>
    have step : ∀ (opn : OpNew) (l : List OpNew),
        specialized op opn →
        (∀ (i : Nat) o on2, rest[i]? = some o → l[i]? = some on2 → specialized o on2) →
        l.length = rest.length →
        (opn :: l).length = (op :: rest).length ∧
        ∀ (i : Nat) o on2, (op :: rest)[i]? = some o → (opn :: l)[i]? = some on2 →
          specialized o on2 := by
      intro opn l hs hall hlen
      refine ⟨by simp [hlen], ?_⟩
      intro i o on2 h1 h2
      cases i with
      | zero =>
        simp only [List.getElem?_cons_zero, Option.some.injEq] at h1 h2
        rw [← h1, ← h2]
        exact hs
      | succ j =>
        simp only [List.getElem?_cons_succ] at h1 h2
        exact hall j o on2 h1 h2
    cases op with
    | delete w =>
      unfold update_operations at h
      dsimp only at h
      rcases hrec : update_operations rest sc with e | ⟨l, sc3⟩ <;>
        rw [hrec] at h <;> dsimp only at h
      · exact Except.noConfusion h
      rw [Except.ok.injEq, Prod.mk.injEq] at h
      obtain ⟨h1, _⟩ := h
      subst h1
      obtain ⟨hlen, hall⟩ := ih _ _ _ hrec
      exact step _ _ rfl hall hlen
    | add w d =>
      unfold update_operations at h
      dsimp only at h
      by_cases hw : w = "portSpec"
      · rw [if_pos hw] at h
        rcases hps : update_portSpec_op d sc with e | ⟨ps2, sc1⟩ <;>
          rw [hps] at h <;> dsimp only at h
        · exact Except.noConfusion h
        rcases hrec : update_operations rest sc1 with e | ⟨l, sc3⟩ <;>
          rw [hrec] at h <;> dsimp only at h
        · exact Except.noConfusion h
        rw [Except.ok.injEq, Prod.mk.injEq] at h
        obtain ⟨h1, _⟩ := h
        subst h1
        obtain ⟨hlen, hall⟩ := ih _ _ _ hrec
        refine step _ _ ⟨rfl, fun _ => ?_⟩ hall hlen
        cases d with
        | portSpecPayload ps => exact ⟨ps, sc, ps2, sc1, rfl, hps, rfl⟩
        | otherPayload t => exact Except.noConfusion hps
      · rw [if_neg hw] at h
        rcases hrec : update_operations rest sc with e | ⟨l, sc3⟩ <;>
          rw [hrec] at h <;> dsimp only at h
        · exact Except.noConfusion h
        rw [Except.ok.injEq, Prod.mk.injEq] at h
        obtain ⟨h1, _⟩ := h
        subst h1
        obtain ⟨hlen, hall⟩ := ih _ _ _ hrec
        exact step _ _ ⟨rfl, fun hc => absurd hc hw⟩ hall hlen
    | change w d =>
      unfold update_operations at h
      dsimp only at h
      by_cases hw : w = "portSpec"
      · rw [if_pos hw] at h
        rcases hps : update_portSpec_op d sc with e | ⟨ps2, sc1⟩ <;>
          rw [hps] at h <;> dsimp only at h
        · exact Except.noConfusion h
        rcases hrec : update_operations rest sc1 with e | ⟨l, sc3⟩ <;>
          rw [hrec] at h <;> dsimp only at h
        · exact Except.noConfusion h
        rw [Except.ok.injEq, Prod.mk.injEq] at h
        obtain ⟨h1, _⟩ := h
        subst h1
        obtain ⟨hlen, hall⟩ := ih _ _ _ hrec
        refine step _ _ ⟨rfl, fun _ => ?_⟩ hall hlen
        cases d with
        | portSpecPayload ps => exact ⟨ps, sc, ps2, sc1, rfl, hps, rfl⟩
        | otherPayload t => exact Except.noConfusion hps
      · rw [if_neg hw] at h
        rcases hrec : update_operations rest sc with e | ⟨l, sc3⟩ <;>
          rw [hrec] at h <;> dsimp only at h
        · exact Except.noConfusion h
        rw [Except.ok.injEq, Prod.mk.injEq] at h
        obtain ⟨h1, _⟩ := h
        subst h1
        obtain ⟨hlen, hall⟩ := ih _ _ _ hrec
        exact step _ _ ⟨rfl, fun hc => absurd hc hw⟩ hall hlen

/-- A concrete two-operation list for exercising `update_operations`. -/
def demoOps : List Op :=
  [Op.add "portSpec" (OpData.portSpecPayload ⟨4, "out", "(a:B)", "", ""⟩),
   Op.delete "module"]

/-- The translation of `demoOps` from the empty id scope. -/
def demoOpsNew : List OpNew :=
  [OpNew.add "portSpec" (OpDataNew.portSpecPayload
     { id := 4, name := "out",
       items := [{ id := 0, pos := 0, module := some "B", package := some "a",
                   nspace := "", label := "", default := "", values := "",
                   entry_type := "" }] }),
   OpNew.delete "module"]

/-- Witness for C6 at a concrete operation list. -/
theorem update_operations_c6_specialized_witness :
    demoOpsNew.length = demoOps.length ∧
    specialized (Op.add "portSpec" (OpData.portSpecPayload ⟨4, "out", "(a:B)", "", ""⟩))
      (OpNew.add "portSpec" (OpDataNew.portSpecPayload
         { id := 4, name := "out",
           items := [{ id := 0, pos := 0, module := some "B", package := some "a",
                       nspace := "", label := "", default := "", values := "",
                       entry_type := "" }] })) := by
  have h := update_operations_c6_specialized demoOps emptyScope demoOpsNew
    [("portSpecItem", 1)] rfl
  exact ⟨h.1, h.2 0 _ _ rfl rfl⟩

/-! ### Claim C3: vistrail variable re-homing -/

lemma update_annotations_no_special (ext : ExtCollab) (l : List DBAnnotation)
    (h : ∀ a ∈ l, a.key ≠ "__vistrail_vars__") :
    update_annotations ext l = .ok (l, []) := by
  induction l with
  | nil => rfl
  | cons a rest ih =>
    have ha : a.key ≠ "__vistrail_vars__" := h a (List.mem_cons_self a rest)
    have hrest : ∀ b ∈ rest, b.key ≠ "__vistrail_vars__" :=
      fun b hb => h b (List.mem_cons_of_mem a hb)
    unfold update_annotations
    rw [if_neg ha, ih hrest]

lemma update_annotations_append_front (ext : ExtCollab)
    (pre rest : List DBAnnotation)
    (h : ∀ a ∈ pre, a.key ≠ "__vistrail_vars__") :
    update_annotations ext (pre ++ rest) =
      match update_annotations ext rest with
      | .error e => .error e
      | .ok (anns, vars) => .ok (pre ++ anns, vars) := by
  induction pre with
  | nil =>
    simp only [List.nil_append]
    rcases hr : update_annotations ext rest with e | ⟨anns, vars⟩ <;> simp
  | cons a pre ih =>
    have ha : a.key ≠ "__vistrail_vars__" := h a (List.mem_cons_self a pre)
    have hpre : ∀ b ∈ pre, b.key ≠ "__vistrail_vars__" :=
      fun b hb => h b (List.mem_cons_of_mem a hb)
    rw [List.cons_append, update_annotations, if_neg ha, ih hpre]
    rcases hr : update_annotations ext rest with e | ⟨anns, vars⟩ <;> simp

/-- Claim C3: a Vistrail whose annotation collection holds exactly one
annotation keyed `__vistrail_vars__` whose value decodes to 2 entries with
distinct uuids translates (when the translation succeeds) into a Vistrail
with exactly 2 vistrail variables carrying those uuids as their identity, no
residual `__vistrail_vars__` annotation, and every other annotation passed
through. -/
theorem translateVistrail_c3_vistrail_vars (ext : ExtCollab) (v : Vistrail)
    (pre post : List DBAnnotation) (s : String)
    (n1 n2 : String) (d1 d2 : VarData)
    (hsplit : v.annotations = pre ++ ⟨"__vistrail_vars__", s⟩ :: post)
    (hpre : ∀ a ∈ pre, a.key ≠ "__vistrail_vars__")
    (hpost : ∀ a ∈ post, a.key ≠ "__vistrail_vars__")
    (hdec : ext.evalVarsDict s = some [(n1, d1), (n2, d2)])
    (_huuid : d1.uuid ≠ d2.uuid)
    (res : VistrailNew) (h : translateVistrail ext v = .ok res) :
    res.vistrailVariables.length = 2 ∧
    res.vistrailVariables.map (fun vv => vv.uuid) = [d1.uuid, d2.uuid] ∧
    res.annotations = pre ++ post ∧
    ∀ a ∈ res.annotations, a.key ≠ "__vistrail_vars__" := by
  have hann : update_annotations ext v.annotations =
      .ok (pre ++ post, [mkVistrailVariable (n1, d1), mkVistrailVariable (n2, d2)]) := by
    rw [hsplit, update_annotations_append_front ext pre _ hpre]
    have hhead : update_annotations ext (⟨"__vistrail_vars__", s⟩ :: post) =
        .ok (post, [mkVistrailVariable (n1, d1), mkVistrailVariable (n2, d2)]) := by
      unfold update_annotations
      rw [if_pos rfl]
      dsimp only
      rw [hdec]
      dsimp only
      rw [update_annotations_no_special ext post hpost]
      rfl
    rw [hhead]
  unfold translateVistrail at h
  rcases hacts : updateActions v.actions emptyScope with e | ⟨acts, sc1⟩ <;>
    rw [hacts] at h <;> dsimp only at h
  · exact Except.noConfusion h
  rw [hann] at h
  dsimp only at h
  rcases haa : update_actionAnnotations ext v.actionAnnotations sc1 with e | ⟨aas, pes, sc2⟩ <;>
    rw [haa] at h <;> dsimp only [spliceVistrail] at h
  · exact Except.noConfusion h
  rw [Except.ok.injEq] at h
  subst h
  refine ⟨rfl, rfl, rfl, ?_⟩
  intro a hm
  rcases List.mem_append.mp hm with hm1 | hm2
  · exact hpre a hm1
  · exact hpost a hm2

/-- The collaborator bundle used by the concrete witnesses: a parser that
recognizes one fixed inner document, a vars decoder that recognizes one fixed
encoded mapping, and a materializer returning one fixed pipeline. -/
def demoExt : ExtCollab :=
  { parseXML := fun t =>
      if t = "INNER" then
        some ⟨"2", "L", "d", [⟨5, "True", []⟩, ⟨99, "False", []⟩]⟩
      else none,
    evalVarsDict := fun t =>
      if t = "vv" then
        some [("x", ⟨"u1", "pk", "md", "", "v1"⟩), ("y", ⟨"u2", "pk", "md", "", "v2"⟩)]
      else none,
    materializeWorkflow := fun _ => ⟨[⟨1, [⟨5, "fn", []⟩]⟩]⟩ }

/-- The vistrail of the C3 witness: one other annotation before and after the
legacy vars annotation. -/
def demoVistrailC3 : Vistrail :=
  ⟨[], [⟨"k1", "a"⟩, ⟨"__vistrail_vars__", "vv"⟩, ⟨"k2", "b"⟩], []⟩

/-- Witness for C3 at a concrete vistrail and decoder. -/
theorem translateVistrail_c3_vistrail_vars_witness :
    ∃ res, translateVistrail demoExt demoVistrailC3 = .ok res ∧
      res.vistrailVariables.length = 2 ∧
      res.vistrailVariables.map (fun vv => vv.uuid) = ["u1", "u2"] ∧
      res.annotations = [⟨"k1", "a"⟩] ++ [⟨"k2", "b"⟩] := by
  refine ⟨_, rfl, ?_⟩
  have h := translateVistrail_c3_vistrail_vars demoExt demoVistrailC3
    [⟨"k1", "a"⟩] [⟨"k2", "b"⟩] "vv" "x" "y"
    ⟨"u1", "pk", "md", "", "v1"⟩ ⟨"u2", "pk", "md", "", "v2"⟩
    rfl (by decide) (by decide) rfl (by decide) _ rfl
  exact ⟨h.1, h.2.1, h.2.2.1⟩

/-! ### Claim C4: unparseable parameter-exploration XML is skipped -/

lemma createParameterExploration_parse_fail (ext : ExtCollab) (aid : Int)
    (s : String) (sc : IdScope)
    (hparse : ext.parseXML (stripParamexps s) = none) :
    createParameterExploration ext aid s sc = .ok (none, sc) := by
  unfold createParameterExploration
  by_cases hs : s = ""
  · rw [if_pos hs]
  · rw [if_neg hs, hparse]

/-- Two `update_actionAnnotations` results agree after the `None` entries of
the accumulated exploration list are dropped (which is all `translateVistrail`
keeps of it). -/
def sameCleaned :
    Except String (List DBActionAnnotation × List (Option ParameterExploration) × IdScope) →
    Except String (List DBActionAnnotation × List (Option ParameterExploration) × IdScope) → Prop
  | .error e1, .error e2 => e1 = e2
  | .ok (a1, p1, s1), .ok (a2, p2, s2) => a1 = a2 ∧ p1.filterMap id = p2.filterMap id ∧ s1 = s2
  | _, _ => False

lemma sameCleaned_stepPE (pe : Option ParameterExploration)
    (x y : Except String (List DBActionAnnotation × List (Option ParameterExploration) × IdScope))
    (h : sameCleaned x y) : sameCleaned (stepPE pe x) (stepPE pe y) := by
  rcases x with e1 | ⟨a1, p1, s1⟩ <;> rcases y with e2 | ⟨a2, p2, s2⟩ <;>
    dsimp only [sameCleaned, stepPE] at h ⊢ <;>
    first
      | exact h
      | exact h.elim
      | (obtain ⟨ha, hp, hs⟩ := h
         refine ⟨ha, ?_, hs⟩
         cases pe <;> simp [hp])

lemma sameCleaned_stepAA (b : DBActionAnnotation)
    (x y : Except String (List DBActionAnnotation × List (Option ParameterExploration) × IdScope))
    (h : sameCleaned x y) : sameCleaned (stepAA b x) (stepAA b y) := by
  rcases x with e1 | ⟨a1, p1, s1⟩ <;> rcases y with e2 | ⟨a2, p2, s2⟩ <;>
    dsimp only [sameCleaned, stepAA] at h ⊢ <;>
    first
      | exact h
      | exact h.elim
      | (obtain ⟨ha, hp, hs⟩ := h
         exact ⟨by rw [ha], hp, hs⟩)

lemma sameCleaned_splice (acts : List DBActionNew) (anns : List DBAnnotation)
    (vars : List VistrailVariable)
    (x y : Except String (List DBActionAnnotation × List (Option ParameterExploration) × IdScope))
    (h : sameCleaned x y) :
    spliceVistrail acts anns vars x = spliceVistrail acts anns vars y := by
  rcases x with e1 | ⟨a1, p1, s1⟩ <;> rcases y with e2 | ⟨a2, p2, s2⟩ <;>
    dsimp only [sameCleaned, spliceVistrail] at h ⊢ <;>
    first
      | rw [h]
      | exact h.elim
      | (obtain ⟨ha, hp, _⟩ := h
         rw [ha, hp])

lemma uaa_skip_unparseable (ext : ExtCollab) (aa : DBActionAnnotation)
    (post : List DBActionAnnotation)
    (hkey : aa.key = "__paramexp__")
    (hparse : ext.parseXML (stripParamexps aa.value) = none) :
    ∀ (pre : List DBActionAnnotation) (sc : IdScope),
      sameCleaned (update_actionAnnotations ext (pre ++ aa :: post) sc)
        (update_actionAnnotations ext (pre ++ post) sc) := by
  intro pre
  induction pre with
  | nil =>
    intro sc
    simp only [List.nil_append]
    rw [update_actionAnnotations, if_pos hkey,
      createParameterExploration_parse_fail ext aa.action_id aa.value sc hparse]
    dsimp only
    rcases hr : update_actionAnnotations ext post sc with e | ⟨aas, pes, sc2⟩ <;>
      dsimp only [sameCleaned, stepPE] <;>
      first
        | rfl
        | exact ⟨rfl, by simp, rfl⟩
  | cons b pre ih =>
    intro sc
    rw [List.cons_append, List.cons_append, update_actionAnnotations]
    conv_rhs => rw [update_actionAnnotations]
    by_cases hb : b.key = "__paramexp__"
    · rw [if_pos hb, if_pos hb]
      cases hc : createParameterExploration ext b.action_id b.value sc with
      | error e => exact rfl
      | ok r =>
        obtain ⟨pe, sc1⟩ := r
        exact sameCleaned_stepPE pe _ _ (ih sc1)
    · rw [if_neg hb, if_neg hb]
      exact sameCleaned_stepAA b _ _ (ih sc)

/-- Claim C4: an `__paramexp__` action annotation whose embedded XML fails to
parse contributes nothing — translating the document with it yields exactly
the same result as translating the document without it (in particular no
parameter exploration originates from it, and all other annotations and
actions are still translated and present). -/
theorem translateVistrail_c4_unparseable_pe (ext : ExtCollab) (v : Vistrail)
    (pre post : List DBActionAnnotation) (aa : DBActionAnnotation)
    (hkey : aa.key = "__paramexp__")
    (hparse : ext.parseXML (stripParamexps aa.value) = none)
    (hsplit : v.actionAnnotations = pre ++ aa :: post) :
    translateVistrail ext v =
      translateVistrail ext
        { actions := v.actions, annotations := v.annotations,
          actionAnnotations := pre ++ post } := by
  unfold translateVistrail
  cases hacts : updateActions v.actions emptyScope with
  | error e => rfl
  | ok p =>
    obtain ⟨acts, sc1⟩ := p
    cases hann : update_annotations ext v.annotations with
    | error e => rfl
    | ok q =>
      obtain ⟨anns, vars⟩ := q
      rw [hsplit]
      exact sameCleaned_splice acts anns vars _ _
        (uaa_skip_unparseable ext aa post hkey hparse pre sc1)

/-- The action annotation of the C4 witness: the parser of `demoExt` rejects
its (stripped) value. -/
def demoBadAA : DBActionAnnotation := ⟨"__paramexp__", 7, "<paramexps>bad</paramexps>"⟩

/-- Witness for C4 at a concrete vistrail: the document with the unparseable
annotation translates exactly like the document without it. -/
theorem translateVistrail_c4_unparseable_pe_witness :
    translateVistrail demoExt ⟨[], [], [demoBadAA]⟩ =
      translateVistrail demoExt ⟨[], [], []⟩ := by
  exact translateVistrail_c4_unparseable_pe demoExt ⟨[], [], [demoBadAA]⟩
    [] [] demoBadAA rfl (by decide) rfl

/-! ### Claims C5 and C9: function resolution failures stop extraction -/

lemma extractFunctions_stop (pipe : Pipeline) (bad : FuncElem) (rest : List FuncElem)
    (hbad : resolveFunction pipe bad.fid = none) (sc : IdScope) (prev : Option String) :
    extractFunctions pipe (bad :: rest) sc prev = .ok ([], sc, prev) := by
  rw [extractFunctions, hbad]

lemma extractFunctions_prefix (pipe : Pipeline) (bad : FuncElem) (rest : List FuncElem)
    (hbad : resolveFunction pipe bad.fid = none) :
    ∀ (pre : List FuncElem) (sc : IdScope) (prev : Option String) (funs : List PEFunction)
      (sc2 : IdScope) (prev2 : Option String),
      extractFunctions pipe pre sc prev = .ok (funs, sc2, prev2) →
      extractFunctions pipe (pre ++ bad :: rest) sc prev = .ok (funs, sc2, prev2) := by
  intro pre
  induction pre with
  | nil =>
    intro sc prev funs sc2 prev2 h
    rw [extractFunctions] at h
    simp only [Except.ok.injEq, Prod.mk.injEq] at h
    obtain ⟨h1, h2, h3⟩ := h
    subst h1; subst h2; subst h3
    rw [List.nil_append]
    exact extractFunctions_stop pipe bad rest hbad sc prev
  | cons f pre ih =>
    intro sc prev funs sc2 prev2 h
    rw [List.cons_append]
    rw [extractFunctions] at h ⊢
    rcases hres : resolveFunction pipe f.fid with _ | ⟨mid, nm⟩ <;> (try rw [hres] at h) <;>
      dsimp only at h ⊢
    · exact h
    by_cases htr : mid ≠ 0 ∧ nm ≠ ""
    · rw [if_pos htr] at h ⊢
      rcases hp : extractParams pipe f.params sc prev with e | ⟨params, sc1, prev1⟩ <;>
        (try rw [hp] at h) <;> dsimp only at h ⊢
      · exact h
      rcases hrec : extractFunctions pipe pre (getNewId "peFunction" sc1).2 prev1 with e | ⟨l, sc3, prev3⟩ <;>
        (try rw [hrec] at h) <;> dsimp only at h
      · exact Except.noConfusion h
      rw [ih _ _ _ _ _ hrec]
      dsimp only
      exact h
    · rw [if_neg htr] at h ⊢
      exact h

/-- Claim C5: for a `__paramexp__` action annotation whose embedded document
contains a `<function>` element whose id matches nothing in the materialized
pipeline, the extraction stops at that element — the resulting
ParameterExploration carries exactly the functions resolved before the
failure and none after it — and the top-level `translateVistrail` call on a
document carrying this annotation returns normally (no exception escapes). -/
theorem createPE_c5_unresolved_function_stops (ext : ExtCollab) (aid : Int)
    (s : String) (doc : XmlDoc) (pre : List FuncElem) (bad : FuncElem)
    (rest : List FuncElem) (funs : List PEFunction) (sc2 : IdScope) (prev2 : Option String)
    (hs : s ≠ "")
    (hparse : ext.parseXML (stripParamexps s) = some doc)
    (hdoc : doc.functions = pre ++ bad :: rest)
    (hbad : resolveFunction (ext.materializeWorkflow aid) bad.fid = none)
    (hpre : extractFunctions (ext.materializeWorkflow aid) pre emptyScope none =
      .ok (funs, sc2, prev2)) :
    ∃ res pe, translateVistrail ext ⟨[], [], [⟨"__paramexp__", aid, s⟩]⟩ = .ok res ∧
      res.parameterExplorations = [pe] ∧ pe.functions = funs := by
  have hcreate : createParameterExploration ext aid s emptyScope =
      .ok (some ⟨(getNewId "parameterExploration" sc2).1, aid, doc.dims, doc.layout,
                 doc.date, funs⟩,
           (getNewId "parameterExploration" sc2).2) := by
    unfold createParameterExploration
    rw [if_neg hs, hparse]
    dsimp only
    rw [hdoc, extractFunctions_prefix _ bad rest hbad pre emptyScope none funs sc2 prev2 hpre]
  have hfinal : translateVistrail ext ⟨[], [], [⟨"__paramexp__", aid, s⟩]⟩ =
      .ok { actions := [], annotations := [], actionAnnotations := [],
            vistrailVariables := [],
            parameterExplorations := [⟨(getNewId "parameterExploration" sc2).1, aid,
              doc.dims, doc.layout, doc.date, funs⟩],
            version := "1.0.3" } := by
    have h1 : translateVistrail ext ⟨[], [], [⟨"__paramexp__", aid, s⟩]⟩ =
        spliceVistrail [] [] []
          (update_actionAnnotations ext [⟨"__paramexp__", aid, s⟩] emptyScope) := rfl
    rw [h1, update_actionAnnotations, if_pos rfl, hcreate]
    rfl
  exact ⟨_, _, hfinal, rfl, rfl⟩

/-- Witness for C5: concrete document with one resolvable function followed
by an unmatched one; the exploration keeps exactly the first function. -/
theorem createPE_c5_unresolved_function_stops_witness :
    ∃ res pe,
      translateVistrail demoExt
        ⟨[], [], [⟨"__paramexp__", 3, "<paramexps>INNER</paramexps>"⟩]⟩ = .ok res ∧
      res.parameterExplorations = [pe] ∧
      pe.functions = [⟨0, 1, "fn", 1, []⟩] := by
  exact createPE_c5_unresolved_function_stops demoExt 3 "<paramexps>INNER</paramexps>"
    ⟨"2", "L", "d", [⟨5, "True", []⟩, ⟨99, "False", []⟩]⟩
    [⟨5, "True", []⟩] ⟨99, "False", []⟩ []
    [⟨0, 1, "fn", 1, []⟩] [("peFunction", 1)] none
    (by decide) (by decide) rfl (by decide) rfl

/-- Claim C9: a `<function>` element is only emitted when the recorded module
id and function name are both truthy — a resolution hitting a module with id
0 (or an empty function name) stops function extraction at that element,
exactly like an id that matches nothing. -/
theorem extractFunctions_c9_falsy_resolution (pipe : Pipeline) (f : FuncElem)
    (rest : List FuncElem) (sc : IdScope) (prev : Option String)
    (mid : Int) (nm : String)
    (hres : resolveFunction pipe f.fid = some (mid, nm))
    (hfalsy : mid = 0 ∨ nm = "") :
    extractFunctions pipe (f :: rest) sc prev = .ok ([], sc, prev) ∧
    ∀ g : FuncElem, resolveFunction pipe g.fid = none →
      extractFunctions pipe (g :: rest) sc prev = .ok ([], sc, prev) := by
  constructor
  · rw [extractFunctions, hres]
    dsimp only
    rw [if_neg ?_]
    rintro ⟨hmid, hnm⟩
    rcases hfalsy with h0 | h0
    · exact hmid h0
    · exact hnm h0
  · intro g hg
    rw [extractFunctions, hg]

/-- Witness for C9: a pipeline whose matching module has id 0. -/
theorem extractFunctions_c9_falsy_resolution_witness :
    extractFunctions ⟨[⟨0, [⟨5, "fn", []⟩]⟩]⟩ [⟨5, "True", []⟩] emptyScope none =
      .ok ([], emptyScope, none) := by
  exact (extractFunctions_c9_falsy_resolution ⟨[⟨0, [⟨5, "fn", []⟩]⟩]⟩ ⟨5, "True", []⟩
    [] emptyScope none 0 "fn" (by decide) (Or.inl rfl)).1

/-! ### Claim C7: startup configuration migration -/

lemma update_config_keys_append (t : List (String × TEntry))
    (l1 l2 : List (String × ConfigVal)) :
    update_config_keys t (l1 ++ l2) =
      update_config_keys t l1 ++ update_config_keys t l2 := by
  induction l1 with
  | nil => rfl
  | cons kv l1 ih =>
    obtain ⟨nm, v⟩ := kv
    rw [List.cons_append, update_config_keys]
    conv_rhs => rw [update_config_keys]
    cases hl : lookupT t nm with
    | none =>
      dsimp only
      rw [ih, List.cons_append]
    | some e =>
      cases e with
      | ren nm2 =>
        dsimp only
        rw [ih, List.cons_append]
      | del =>
        dsimp only
        exact ih
      | full nm2 conv inner =>
        dsimp only
        rw [ih, List.cons_append]

lemma uck_nologger_head (post : List (String × ConfigVal)) :
    update_config_keys startupTable (("nologger", ConfigVal.cbool "true") :: post) =
      ("executionLog", ConfigVal.cbool "False") :: update_config_keys startupTable post := by
  rw [update_config_keys]
  have hl : lookupT startupTable "nologger" =
      some (TEntry.full (some "executionLog") (some true) none) := rfl
  rw [hl]
  rfl

lemma uck_showMovies_head (v : ConfigVal) (post : List (String × ConfigVal)) :
    update_config_keys startupTable (("showMovies", v) :: post) =
      update_config_keys startupTable post := by
  rw [update_config_keys]
  have hl : lookupT startupTable "showMovies" = some TEntry.del := rfl
  rw [hl]

/-- Counterexample to C7 as stated: for the startup configuration holding
only `nologger = "true"`, the migrated output does not contain an
`executionLog` key whose value is the boolean text "false" — the inversion
emits the capitalized Python boolean text "False". -/
theorem translateStartup_c7_counterexample :
    ¬ (("executionLog", ConfigVal.cbool "false") ∈
        (translateStartup ⟨[("nologger", ConfigVal.cbool "true")], "1.0.2"⟩).configuration) := by
  intro hmem
  have hnil : update_config_keys startupTable [] = [] := by rw [update_config_keys]
  have hconf : (translateStartup ⟨[("nologger", ConfigVal.cbool "true")], "1.0.2"⟩).configuration =
      [("executionLog", ConfigVal.cbool "False")] := by
    show update_config_keys startupTable [("nologger", ConfigVal.cbool "true")] = _
    rw [uck_nologger_head, hnil]
  rw [hconf] at hmem
  have h := List.mem_singleton.mp hmem
  have h2 := congrArg Prod.snd h
  injection h2 with h3
  exact absurd h3 (by decide)

/-- Claim C7 (amended): a key `nologger` with value "true" becomes key
`executionLog` with value "False" (rename applied, then case-insensitive
boolean inversion emitted in the capitalized Python textual form), and every
key named `showMovies` is dropped from the migrated output. -/
theorem translateStartup_c7_amended (st st2 : Startup)
    (pre post pre2 post2 : List (String × ConfigVal)) (v : ConfigVal)
    (h : st.configuration = pre ++ ("nologger", ConfigVal.cbool "true") :: post)
    (h2 : st2.configuration = pre2 ++ ("showMovies", v) :: post2) :
    (translateStartup st).configuration =
      update_config_keys startupTable pre ++
        ("executionLog", ConfigVal.cbool "False") :: update_config_keys startupTable post ∧
    (translateStartup st2).configuration =
      update_config_keys startupTable pre2 ++ update_config_keys startupTable post2 := by
  constructor
  · show update_config_keys startupTable st.configuration = _
    rw [h, update_config_keys_append, uck_nologger_head]
  · show update_config_keys startupTable st2.configuration = _
    rw [h2, update_config_keys_append, uck_showMovies_head]

/-- Witness for the amended C7 at concrete configurations. -/
theorem translateStartup_c7_amended_witness :
    (translateStartup ⟨[("autosave", ConfigVal.cbool "1"),
                        ("nologger", ConfigVal.cbool "true")], "1.0.2"⟩).configuration =
      update_config_keys startupTable [("autosave", ConfigVal.cbool "1")] ++
        ("executionLog", ConfigVal.cbool "False") :: update_config_keys startupTable [] ∧
    (translateStartup ⟨[("showMovies", ConfigVal.cbool "1"),
                        ("foo", ConfigVal.cstr "z")], "1.0.2"⟩).configuration =
      update_config_keys startupTable [] ++
        update_config_keys startupTable [("foo", ConfigVal.cstr "z")] := by
  exact translateStartup_c7_amended
    ⟨[("autosave", ConfigVal.cbool "1"), ("nologger", ConfigVal.cbool "true")], "1.0.2"⟩
    ⟨[("showMovies", ConfigVal.cbool "1"), ("foo", ConfigVal.cstr "z")], "1.0.2"⟩
    [("autosave", ConfigVal.cbool "1")] [] [] [("foo", ConfigVal.cstr "z")]
    (ConfigVal.cbool "1") rfl rfl

/-! ### Claim C8: version stamping -/

/-- Claim C8: every top-level driver stamps the (single, overwritten) version
field of its result with exactly the literal "1.0.3", for every input
document on which it returns a result. -/
theorem drivers_c8_version_stamp :
    (∀ (ext : ExtCollab) (v : Vistrail) (res : VistrailNew),
        translateVistrail ext v = .ok res → res.version = "1.0.3") ∧
    (∀ (w : Workflow) (res : WorkflowNew),
        translateWorkflow w = .ok res → res.version = "1.0.3") ∧
    (∀ l : Log, (translateLog l).version = "1.0.3") ∧
    (∀ (r : Registry) (res : RegistryNew),
        translateRegistry r = .ok res → res.version = "1.0.3") ∧
    (∀ st : Startup, (translateStartup st).version = "1.0.3") := by
  refine ⟨?_, ?_, fun l => rfl, ?_, fun st => rfl⟩
  · intro ext v res h
    unfold translateVistrail at h
    rcases hacts : updateActions v.actions emptyScope with e | ⟨acts, sc1⟩ <;>
      (try rw [hacts] at h) <;> dsimp only at h
    · exact Except.noConfusion h
    rcases hann : update_annotations ext v.annotations with e | ⟨anns, vars⟩ <;>
      (try rw [hann] at h) <;> dsimp only at h
    · exact Except.noConfusion h
    rcases haa : update_actionAnnotations ext v.actionAnnotations sc1 with e | ⟨aas, pes, sc2⟩ <;>
      (try rw [haa] at h) <;> dsimp only [spliceVistrail] at h
    · exact Except.noConfusion h
    rw [Except.ok.injEq] at h
    subst h
    rfl
  · intro w res h
    unfold translateWorkflow at h
    rcases hm : updateModules w.modules emptyScope with e | ⟨mods, sc⟩ <;>
      (try rw [hm] at h) <;> dsimp only at h
    · exact Except.noConfusion h
    rw [Except.ok.injEq] at h
    subst h
    rfl
  · intro r res h
    unfold translateRegistry at h
    rcases hm : updateModules r.descriptors emptyScope with e | ⟨mods, sc⟩ <;>
      (try rw [hm] at h) <;> dsimp only at h
    · exact Except.noConfusion h
    rw [Except.ok.injEq] at h
    subst h
    rfl

/-- Witness for C8: each driver applied at a concrete (empty) document. -/
theorem drivers_c8_version_stamp_witness :
    ({ actions := [], annotations := [], actionAnnotations := [],
       vistrailVariables := [], parameterExplorations := [],
       version := "1.0.3" } : VistrailNew).version = "1.0.3" ∧
    ({ modules := [], version := "1.0.3" } : WorkflowNew).version = "1.0.3" ∧
    (translateLog ⟨["m"], "1.0.2"⟩).version = "1.0.3" ∧
    ({ descriptors := [], version := "1.0.3" } : RegistryNew).version = "1.0.3" ∧
    (translateStartup ⟨[], "1.0.2"⟩).version = "1.0.3" := by
  obtain ⟨h1, h2, h3, h4, h5⟩ := drivers_c8_version_stamp
  exact ⟨h1 demoExt ⟨[], [], []⟩ _ rfl, h2 ⟨[], "1.0.2"⟩ _ rfl,
         h3 ⟨["m"], "1.0.2"⟩, h4 ⟨[], "1.0.2"⟩ _ rfl, h5 ⟨[], "1.0.2"⟩⟩

/-- Witness for C10 at the concrete single-entry signature "(Integer)". -/
theorem update_portSpec_c10_no_colon_witness :
    ((⟨0, "p", [⟨0, 0, some "Integer", none, "", "", "", "", ""⟩]⟩ : PortSpecNew)).items.length = 1 ∧
    ((⟨0, "p", [⟨0, 0, some "Integer", none, "", "", "", "", ""⟩]⟩ : PortSpecNew)).items.map
        (fun it => (it.module, it.package, it.nspace)) = [(some "Integer", none, "")] := by
  exact update_portSpec_c10_no_colon 0 "p" "" "" emptyScope "Integer"
    (by decide) (by decide) (by decide) _ [("portSpecItem", 1)] rfl
